import Mathlib

/-!
Verification of the SMS PDU codec of `backend/mikrotik/sms_handler.py`.

Python strings are embedded as `List Char` (a Python `str` is a sequence of
code points).  Python `int(s, 16)` / `int(s)` on the hex/decimal substrings
handled here are embedded as `Option Nat`-valued parsers (`hexNat`, `decNat`);
a `none` models the `ValueError` that the source catches with its
`try/except` blocks.  The one impure dependency of the decoder —
`datetime.now().isoformat()` used as a fallback timestamp — is threaded
explicitly as a `now : List Char` parameter.
-/

set_option maxRecDepth 20000

/-- Python whitespace for `str.strip()`. -/
def isPySpace (c : Char) : Bool :=
  c = ' ' ∨ c = '\t' ∨ c = '\n' ∨ c = '\r' ∨ c = '\x0b' ∨ c = '\x0c'

/-- `s.strip()`: remove leading and trailing whitespace. -/
def pyStrip (s : List Char) : List Char :=
  ((s.dropWhile isPySpace).reverse.dropWhile isPySpace).reverse

/-- `s.split("\n")`: split on every newline, keeping empty pieces. -/
def splitNl : List Char → List (List Char)
  | [] => [[]]
  | c :: rest =>
    match splitNl rest with
    | [] => [[c]]
    | h :: t => if c = '\n' then [] :: h :: t else (c :: h) :: t

/-- `pdu.upper().replace(" ", "")` as performed by the PDU decoder. -/
def pyClean (s : List Char) : List Char :=
  (s.map Char.toUpper).filter (fun c => !(c = ' '))

/-- Python pySlice `s[a:b]` (for `0 ≤ a ≤ b`). -/
def pySlice (s : List Char) (a b : Nat) : List Char :=
  (s.drop a).take (b - a)

/-- Value of one hex digit, `none` if the character is not a hex digit. -/
def hexDigitVal (c : Char) : Option Nat :=
  if '0' ≤ c ∧ c ≤ '9' then some (c.toNat - 48)
  else if 'A' ≤ c ∧ c ≤ 'F' then some (c.toNat - 55)
  else if 'a' ≤ c ∧ c ≤ 'f' then some (c.toNat - 87)
  else none

/-- `int(s, 16)` for the plain hex-digit substrings arising here
(`none` models the `ValueError` on an empty or non-hex string). -/
def hexNat (s : List Char) : Option Nat :=
  if s = [] then none
  else s.foldl (fun acc c =>
    match acc, hexDigitVal c with
    | some a, some d => some (16 * a + d)
    | _, _ => none) (some 0)

/-- `int(s)` (base 10) for the plain decimal substrings arising here. -/
def decNat (s : List Char) : Option Nat :=
  if s = [] then none
  else s.foldl (fun acc c =>
    match acc, (if '0' ≤ c ∧ c ≤ '9' then some (c.toNat - 48) else none) with
    | some a, some d => some (10 * a + d)
    | _, _ => none) (some 0)

/-- Read two hex characters of `s` at offset `pos`: `int(s[pos:pos+2], 16)`. -/
def hex2 (s : List Char) (pos : Nat) : Option Nat :=
  hexNat (pySlice s pos (pos + 2))

/-- Left-pad the decimal representation of `n` with zeros to width `w`
(Python `f"{n:0wd}"` for non-negative `n`). -/
def padZeros (w n : Nat) : List Char :=
  List.replicate (w - (Nat.repr n).length) '0' ++ (Nat.repr n).data

/-- `bytes.fromhex` on a whitespace-free string: an even number of hex
digits, `none` modelling the `ValueError` otherwise. -/
def bytesFromHex : List Char → Option (List Nat)
  | [] => some []
  | [_] => none
  | c1 :: c2 :: rest =>
    match hexDigitVal c1, hexDigitVal c2 with
    | some h, some l => (bytesFromHex rest).map (fun bs => (16 * h + l) :: bs)
    | _, _ => none

/-- The decoded-message record (`DecodedSMS` dataclass). -/
structure DecodedSMS where
  index : Nat
  phone : List Char
  timestamp : List Char
  body : List Char
  encoding : List Char
  concat_ref : Nat
  concat_total : Nat
  concat_seq : Nat
deriving DecidableEq

/-- `sanitize_unicode`: drop surrogate code points. -/
def sanitize_unicode (text : List Char) : List Char :=
  text.filter (fun c => !(0xD800 ≤ c.toNat ∧ c.toNat ≤ 0xDFFF))

/-- The 4-hex-chars-at-a-time loop of `decode_ucs2_hex`: each full chunk is
parsed as one UTF-16 code unit; null, BOM and surrogate values are skipped,
as is a chunk that fails `int(..., 16)`. -/
def ucs2Loop : List Char → List Char
  | c1 :: c2 :: c3 :: c4 :: rest =>
    (match hexNat [c1, c2, c3, c4] with
     | some code =>
       if 0 < code ∧ code ≠ 0xFEFF ∧ ¬(0xD800 ≤ code ∧ code ≤ 0xDFFF) then
         [Char.ofNat code]
       else []
     | none => []) ++ ucs2Loop rest
  | _ => []

/-- `decode_ucs2_hex`: strip blanks and newlines, then decode 16-bit units. -/
def decode_ucs2_hex (hex_string : List Char) : List Char :=
  ucs2Loop (hex_string.filter (fun c => !(c = ' ') && !(c = '\n')))

/-- The pairwise swap inside `swap_nibbles` (odd trailing character kept). -/
def swapPairs : List Char → List Char
  | [] => []
  | [a] => [a]
  | a :: b :: t => b :: a :: swapPairs t

/-- `swap_nibbles`: swap adjacent hex characters, then `replace("F", "")`
(which removes every capital `F`, wherever it occurs). -/
def swap_nibbles (s : List Char) : List Char :=
  (swapPairs s).filter (fun c => !(c = 'F'))

/-- The 128-entry GSM 7-bit default alphabet table of the source
(position 27 is rendered as a blank there, standing in for ESC). -/
def gsm7_alphabet : List Char :=
  ['@', '£', '$', '¥', 'è', 'é', 'ù', 'ì', 'ò', 'Ç', '\n', 'Ø', 'ø', '\r', 'Å', 'å',
   'Δ', '_', 'Φ', 'Γ', 'Λ', 'Ω', 'Π', 'Ψ', 'Σ', 'Θ', 'Ξ', ' ', 'Æ', 'æ', 'ß', 'É',
   ' ', '!', '\"', '#', '¤', '%', '&', '\'', '(', ')', '*', '+', ',', '-', '.', '/',
   '0', '1', '2', '3', '4', '5', '6', '7', '8', '9', ':', ';', '<', '=', '>', '?',
   '¡', 'A', 'B', 'C', 'D', 'E', 'F', 'G', 'H', 'I', 'J', 'K', 'L', 'M', 'N', 'O',
   'P', 'Q', 'R', 'S', 'T', 'U', 'V', 'W', 'X', 'Y', 'Z', 'Ä', 'Ö', 'Ñ', 'Ü', '§',
   '¿', 'a', 'b', 'c', 'd', 'e', 'f', 'g', 'h', 'i', 'j', 'k', 'l', 'm', 'n', 'o',
   'p', 'q', 'r', 's', 't', 'u', 'v', 'w', 'x', 'y', 'z', 'ä', 'ö', 'ñ', 'ü', 'à']

/-- The byte loop of `decode_gsm7_packed`: 7-bit units reassembled across
byte boundaries, with the carried remainder emitted every 7 shifts. -/
def gsm7Loop : List Nat → Nat → Nat → List Char
  | [], _, _ => []
  | b :: bs, shift, prev =>
    let char := ((b <<< shift) ||| prev) &&& 0x7F
    let c := if char < gsm7_alphabet.length then gsm7_alphabet.getD char '@'
             else Char.ofNat char
    let prev2 := b >>> (7 - shift)
    if shift + 1 = 7 then
      (if prev2 < gsm7_alphabet.length then
        [c, gsm7_alphabet.getD (prev2 &&& 0x7F) '@'] else [c]) ++ gsm7Loop bs 0 0
    else
      c :: gsm7Loop bs (shift + 1) prev2

/-- `decode_gsm7_packed`: on a `bytes.fromhex` failure the raw hex string is
returned unchanged; a positive `num_chars` truncates the output. -/
def decode_gsm7_packed (packed_hex : List Char) (num_chars : Nat) : List Char :=
  match bytesFromHex packed_hex with
  | none => packed_hex
  | some packed =>
    let chars := gsm7Loop packed 0 0
    if num_chars > 0 then chars.take num_chars else chars

/-- `decode_pdu_phone`: type-of-number byte, then either GSM7 alphanumeric
decoding or nibble swap with an optional international `+` prefix.  Returns
the phone string and the count of hex characters consumed; `none` models
the `ValueError` of `int` on a malformed type byte, which the caller's
blanket handler turns into a failed PDU. -/
def decode_pdu_phone (pdu : List Char) (length : Nat) : Option (List Char × Nat) :=
  let byte_len := (length + 1) / 2
  match hexNat (pySlice pdu 0 2) with
  | none => none
  | some type_byte =>
    let number_hex := pySlice pdu 2 (2 + byte_len * 2)
    let phone :=
      if type_byte &&& 0x70 = 0x50 then
        decode_gsm7_packed number_hex length
      else
        (if type_byte &&& 0x70 = 0x10 then ['+'] else []) ++ swap_nibbles number_hex
    some (phone, 2 + byte_len * 2)

/-- The always-succeeding core of `decode_pdu_timestamp`: `none` models the
exception that the source catches to fall back to `datetime.now()`. -/
def decode_pdu_timestamp_core (ts_hex : List Char) : Option (List Char) :=
  let swapped := swap_nibbles (ts_hex.take 14)
  match decNat (pySlice swapped 0 2), decNat (pySlice swapped 2 4),
        decNat (pySlice swapped 4 6), decNat (pySlice swapped 6 8),
        decNat (pySlice swapped 8 10), decNat (pySlice swapped 10 12) with
  | some year, some month, some day, some hour, some minute, some second =>
    let full_year := if year < 80 then 2000 + year else 1900 + year
    some (padZeros 4 full_year ++ ['-'] ++ padZeros 2 month ++ ['-'] ++ padZeros 2 day
      ++ ['T'] ++ padZeros 2 hour ++ [':'] ++ padZeros 2 minute ++ [':'] ++ padZeros 2 second)
  | _, _, _, _, _, _ => none

/-- `decode_pdu_timestamp`: the fallback branch returns
`datetime.now().isoformat()`, modelled by the explicit `now` argument. -/
def decode_pdu_timestamp (now ts_hex : List Char) : List Char :=
  (decode_pdu_timestamp_core ts_hex).getD now

/-- Concatenation metadata extracted from the User Data Header
(the `info` dict of `parse_udh`). -/
structure UdhInfo where
  concat_ref : Nat
  concat_total : Nat
  concat_seq : Nat
deriving DecidableEq

/-- The default "no concatenation" metadata. -/
def defaultUdh : UdhInfo := ⟨0, 1, 1⟩

/-- The information-element loop of `parse_udh`.  The returned flag is
`true` when the loop finished normally and `false` when some `int` call
raised; in the latter case the info carries exactly the field assignments
performed before the failing call, as the source's mutated dict does.  The
fuel is `2 + udhl * 2`, which exceeds the iteration count since `pos`
advances by at least 4 per iteration starting from 2. -/
def parseUdhLoop (ud : List Char) (header_hex_len : Nat) :
    Nat → Nat → UdhInfo → UdhInfo × Bool
  | 0, _, info => (info, false)
  | fuel + 1, pos, info =>
    if pos < header_hex_len then
      match hexNat (pySlice ud pos (pos + 2)) with
      | none => (info, false)
      | some iei =>
        match hexNat (pySlice ud (pos + 2) (pos + 4)) with
        | none => (info, false)
        | some iedl =>
          let ied := pySlice ud (pos + 4) (pos + 4 + iedl * 2)
          if iei = 0x00 ∧ iedl = 3 then
            match hexNat (pySlice ied 0 2) with
            | none => (info, false)
            | some r =>
              match hexNat (pySlice ied 2 4) with
              | none => ({ info with concat_ref := r }, false)
              | some t =>
                match hexNat (pySlice ied 4 6) with
                | none => ({ info with concat_ref := r, concat_total := t }, false)
                | some s =>
                  parseUdhLoop ud header_hex_len fuel (pos + 4 + iedl * 2)
                    ⟨r, t, s⟩
          else if iei = 0x08 ∧ iedl = 4 then
            match hexNat (pySlice ied 0 4) with
            | none => (info, false)
            | some r =>
              match hexNat (pySlice ied 4 6) with
              | none => ({ info with concat_ref := r }, false)
              | some t =>
                match hexNat (pySlice ied 6 8) with
                | none => ({ info with concat_ref := r, concat_total := t }, false)
                | some s =>
                  parseUdhLoop ud header_hex_len fuel (pos + 4 + iedl * 2)
                    ⟨r, t, s⟩
          else
            parseUdhLoop ud header_hex_len fuel (pos + 4 + iedl * 2) info
    else (info, true)

/-- `parse_udh`: returns the concatenation metadata and the consumed hex
length (`2 + UDHL*2` on success, `0` when some `int` call raised). -/
def parse_udh (ud_hex : List Char) : UdhInfo × Nat :=
  match hexNat (pySlice ud_hex 0 2) with
  | none => (defaultUdh, 0)
  | some udhl =>
    let header_hex_len := 2 + udhl * 2
    match parseUdhLoop ud_hex header_hex_len header_hex_len 2 defaultUdh with
    | (info, true) => (info, header_hex_len)
    | (info, false) => (info, 0)

/-- The GSM7 septet-equivalent length of a UDH of `udh_bytes` octets, with
fill-bit accounting (lines 248-251 of the source). -/
def gsm7UdhSeptets (udh_bytes : Nat) : Nat :=
  let fill_bits := (7 - (udh_bytes * 8) % 7) % 7
  (udh_bytes * 8 + fill_bits) / 7

/-- `decode_sms_deliver_pdu`: single pass over one PDU string.  `none`
models the blanket `except` returning `None`; `now` is the clock reading
used by the timestamp fallback. -/
def decode_sms_deliver_pdu (now pdu0 : List Char) : Option DecodedSMS :=
  let pdu := pyClean pdu0
  match hex2 pdu 0 with
  | none => none
  | some sca_len =>
  let pos := 2 + sca_len * 2
  match hex2 pdu pos with
  | none => none
  | some pdu_type =>
  let has_udh := pdu_type &&& 0x40 != 0
  let pos := pos + 2
  match hex2 pdu pos with
  | none => none
  | some oa_len =>
  let pos := pos + 2
  match decode_pdu_phone (pdu.drop pos) oa_len with
  | none => none
  | some (phone, phone_bytes) =>
  let pos := pos + phone_bytes
  let pos := pos + 2
  match hex2 pdu pos with
  | none => none
  | some dcs =>
  let pos := pos + 2
  let is_ucs2 : Bool :=
    if dcs &&& 0xC0 = 0x00 then decide ((dcs >>> 2) &&& 0x03 = 2)
    else decide (dcs &&& 0xF0 = 0xE0)
  let timestamp := decode_pdu_timestamp now (pySlice pdu pos (pos + 14))
  let pos := pos + 14
  match hex2 pdu pos with
  | none => none
  | some udl0 =>
  let pos := pos + 2
  let ud0 := pdu.drop pos
  let step :=
    if has_udh then
      let pu := parse_udh ud0
      let udl1 := if is_ucs2 then udl0 - pu.2 / 2
                  else udl0 - gsm7UdhSeptets (pu.2 / 2)
      (pu.1, ud0.drop pu.2, udl1)
    else (defaultUdh, ud0, udl0)
  let bodyEnc :=
    if is_ucs2 then (decode_ucs2_hex step.2.1, ['u', 'c', 's', '2'])
    else (decode_gsm7_packed step.2.1 (if step.2.2 > 0 then step.2.2 else 0),
          ['g', 's', 'm', '7'])
  some
    { index := 0
      phone := phone
      timestamp := timestamp
      body := sanitize_unicode bodyEnc.1
      encoding := bodyEnc.2
      concat_ref := step.1.concat_ref
      concat_total := step.1.concat_total
      concat_seq := step.1.concat_seq }

/-- The cursor walk of `decode_sms_deliver_pdu` up to the timestamp field,
returning the 14-character timestamp pySlice when every preceding field
parses (an observer of the decoder's position arithmetic, used to state
when the clock fallback is unreachable). -/
def tsField (pdu0 : List Char) : Option (List Char) :=
  let pdu := pyClean pdu0
  match hex2 pdu 0 with
  | none => none
  | some sca_len =>
  let pos := 2 + sca_len * 2
  match hex2 pdu pos with
  | none => none
  | some _pdu_type =>
  let pos := pos + 2
  match hex2 pdu pos with
  | none => none
  | some oa_len =>
  let pos := pos + 2
  match decode_pdu_phone (pdu.drop pos) oa_len with
  | none => none
  | some (_phone, phone_bytes) =>
  let pos := pos + phone_bytes
  let pos := pos + 2
  match hex2 pdu pos with
  | none => none
  | some _dcs =>
  let pos := pos + 2
  some (pySlice pdu pos (pos + 14))

/-- `true` when the PDU either fails before its timestamp field or has a
timestamp field whose decimal parse succeeds, i.e. when the
`datetime.now()` fallback is not consulted. -/
def tsParses (pdu0 : List Char) : Bool :=
  match tsField pdu0 with
  | some s => (decode_pdu_timestamp_core s).isSome
  | none => true

/-- Skip Python `\s*` whitespace. -/
def dropWs (s : List Char) : List Char := s.dropWhile isPySpace

/-- Leading run of decimal digits (`\d+` candidate). -/
def takeDigits (s : List Char) : List Char := s.takeWhile Char.isDigit

/-- Backtracking for the lazy `.*?,\s*(\d+)` tail of the `+CMGL` pattern:
find the shortest prefix followed by a comma, optional whitespace and at
least one digit. -/
def lazyCommaDigits : List Char → Bool
  | [] => false
  | c :: rest =>
    if c = ',' ∧ takeDigits (dropWs rest) ≠ [] then true
    else lazyCommaDigits rest

/-- `re.match(r'\+CMGL:\s*(\d+),\s*(\d+),.*?,\s*(\d+)', line)`, returning
`int(match.group(1))` when the pattern matches at the start of the line. -/
def cmglIndex (line : List Char) : Option Nat :=
  if ("+CMGL:".data).isPrefixOf line then
    let r1 := dropWs (line.drop 6)
    let d1 := takeDigits r1
    if d1 = [] then none
    else
      match r1.drop d1.length with
      | ',' :: r2 =>
        let r3 := dropWs r2
        let d2 := takeDigits r3
        if d2 = [] then none
        else
          match r3.drop d2.length with
          | ',' :: r4 => if lazyCommaDigits r4 then decNat d1 else none
          | _ => none
      | _ => none
  else none

/-- The line loop of `parse_cmgl_response`: a `+CMGL:` marker line whose
pattern matches is followed by a PDU line (unless blank, a `+`-line or the
`OK` token); a failed single-PDU decode is skipped, the rest of the
response is still processed.  The fuel equals the number of remaining
lines on entry and the loop consumes at least one line per iteration, so
the fuel never runs out. -/
def collectCmglAux (now : List Char) : Nat → List (List Char) → List DecodedSMS
  | 0, _ => []
  | _ + 1, [] => []
  | fuel + 1, l :: rest =>
    let line := pyStrip l
    if ("+CMGL:".data).isPrefixOf line then
      match cmglIndex line with
      | some idx =>
        match rest with
        | [] => []
        | p :: rest2 =>
          let pdu_line := pyStrip p
          if pdu_line ≠ [] ∧ ¬ (("+".data).isPrefixOf pdu_line) ∧ pdu_line ≠ "OK".data then
            match decode_sms_deliver_pdu now pdu_line with
            | some decoded => { decoded with index := idx } :: collectCmglAux now fuel rest2
            | none => collectCmglAux now fuel rest2
          else collectCmglAux now fuel rest
      | none => collectCmglAux now fuel rest
    else collectCmglAux now fuel rest

/-- The marker-line loop of `parse_cmgl_response` on the split lines. -/
def collectCmgl (now : List Char) (lines : List (List Char)) : List DecodedSMS :=
  collectCmglAux now lines.length lines

/-- Append `msg` to the group of `key`, creating the group at the end on
first sight — the insertion-ordered dict `groups` of the source. -/
def addToGroup (groups : List ((List Char × Nat) × List DecodedSMS))
    (key : List Char × Nat) (msg : DecodedSMS) :
    List ((List Char × Nat) × List DecodedSMS) :=
  match groups with
  | [] => [(key, [msg])]
  | (k, ms) :: rest =>
    if k = key then (k, ms ++ [msg]) :: rest
    else (k, ms) :: addToGroup rest key msg

/-- One step of the partition loop of `reassemble_concatenated`. -/
def partitionStep (acc : List ((List Char × Nat) × List DecodedSMS) × List DecodedSMS)
    (msg : DecodedSMS) :
    List ((List Char × Nat) × List DecodedSMS) × List DecodedSMS :=
  if msg.concat_total > 1 then
    (addToGroup acc.1 (msg.phone, msg.concat_ref) msg, acc.2)
  else (acc.1, acc.2 ++ [msg])

/-- Partition the batch into fragment groups keyed by `(phone, concat_ref)`
and standalone messages, in input order. -/
def buildGroups (messages : List DecodedSMS) :
    List ((List Char × Nat) × List DecodedSMS) × List DecodedSMS :=
  messages.foldl partitionStep ([], [])

/-- The f-string marker appended to an incomplete concatenation group. -/
def incompleteMarker (received expected : Nat) : List Char :=
  "\n\n[⚠️ Message incomplete: ".data ++ (Nat.repr received).data
    ++ "/".data ++ (Nat.repr expected).data ++ " parts received]".data

/-- Combine one fragment group: sort by `concat_seq` (Python's stable
sort), concatenate bodies, flag an incomplete group, and emit one record
carrying the first part's metadata with the concatenation fields reset.
The `[]` case is unreachable (groups are created non-empty; the source
would raise an `IndexError` there). -/
def combineGroup (g : (List Char × Nat) × List DecodedSMS) : DecodedSMS :=
  let parts := List.insertionSort (fun a b => a.concat_seq ≤ b.concat_seq) g.2
  match parts with
  | [] => { index := 0, phone := [], timestamp := [], body := [], encoding := [],
            concat_ref := 0, concat_total := 1, concat_seq := 1 }
  | first :: _ =>
    let combined := (parts.map DecodedSMS.body).flatten
    let combined2 :=
      if parts.length < first.concat_total then
        combined ++ incompleteMarker parts.length first.concat_total
      else combined
    { index := first.index, phone := first.phone, timestamp := first.timestamp,
      body := combined2, encoding := first.encoding,
      concat_ref := 0, concat_total := 1, concat_seq := 1 }

/-- `reassemble_concatenated`: standalone messages (in input order) followed
by one combined record per fragment group (in key-insertion order). -/
def reassemble_concatenated (messages : List DecodedSMS) : List DecodedSMS :=
  let gs := buildGroups messages
  gs.2 ++ gs.1.map combineGroup

/-- `parse_cmgl_response`: split the response into lines, decode each
`(index, PDU)` pair, then reassemble concatenated messages. -/
def parse_cmgl_response (now response : List Char) : List DecodedSMS :=
  reassemble_concatenated (collectCmgl now (splitNl (pyStrip response)))

/-- One uppercase hex digit (value `d < 16`). -/
def hexChar (d : Nat) : Char :=
  if d < 10 then Char.ofNat (48 + d) else Char.ofNat (55 + d)

/-- Two-hex-digit encoding of a byte value. -/
def toHex2 (m : Nat) : List Char := [hexChar (m / 16), hexChar (m % 16)]

/-- Scaffold of a GSM7 SMS-DELIVER PDU with the UDH-present flag set
(type byte `44`): zero-length SCA, international originator
`+1234567890`, PID 00, DCS 00, timestamp `2021-01-25T12:30:00`. -/
def c3HeaderUdh : List Char :=
  ['0','0','4','4','0','A','9','1','2','1','4','3','6','5','8','7','0','9',
   '0','0','0','0','1','2','1','0','5','2','2','1','0','3','0','0','0','0']

/-- The same scaffold with the UDH-present flag clear (type byte `04`). -/
def c3HeaderPlain : List Char :=
  ['0','0','0','4','0','A','9','1','2','1','4','3','6','5','8','7','0','9',
   '0','0','0','0','1','2','1','0','5','2','2','1','0','3','0','0','0','0']

/-- A 6-byte 8-bit-reference concatenation UDH: `05 00 03 2A 03 01`. -/
def c3Udh : List Char := ['0','5','0','0','0','3','2','A','0','3','0','1']

/-- PDU carrying the concatenation UDH, then `payload`, with declared
user-data length `n + 7` septets (7 septets for the 6 header octets). -/
def pduWithUdh (n : Nat) (payload : List Char) : List Char :=
  c3HeaderUdh ++ (toHex2 (n + 7) ++ (c3Udh ++ payload))

/-- The same payload without UDH, with declared length `n` septets. -/
def pduNoUdh (n : Nat) (payload : List Char) : List Char :=
  c3HeaderPlain ++ (toHex2 n ++ payload)

/-! ### Helper lemmas -/

lemma char_toNat_ofNat {n : Nat} (h : n.isValidChar) : (Char.ofNat n).toNat = n := by
  unfold Char.ofNat
  split
  · rfl
  · next hn => exact absurd h hn

lemma hexDigitVal_lt {c : Char} {d : Nat} (h : hexDigitVal c = some d) : d < 16 := by
  unfold hexDigitVal at h
  split at h
  · next hc =>
    have hb : c.toNat ≤ 57 := hc.2
    simp only [Option.some.injEq] at h
    omega
  · split at h
    · next hc =>
      have hb : c.toNat ≤ 70 := hc.2
      simp only [Option.some.injEq] at h
      omega
    · split at h
      · next hc =>
        have hb : c.toNat ≤ 102 := hc.2
        simp only [Option.some.injEq] at h
        omega
      · exact absurd h (by simp)

lemma hexNat_four_lt {c1 c2 c3 c4 : Char} {v : Nat}
    (h : hexNat [c1, c2, c3, c4] = some v) : v < 65536 := by
  simp only [hexNat, List.foldl, if_neg (by simp : ¬([c1,c2,c3,c4] = []))] at h
  rcases h1 : hexDigitVal c1 with _ | d1 <;> rw [h1] at h
  · simp at h
  rcases h2 : hexDigitVal c2 with _ | d2 <;> rw [h2] at h
  · simp at h
  rcases h3 : hexDigitVal c3 with _ | d3 <;> rw [h3] at h
  · simp at h
  rcases h4 : hexDigitVal c4 with _ | d4 <;> rw [h4] at h
  · simp at h
  simp only [Option.some.injEq] at h
  have b1 := hexDigitVal_lt h1
  have b2 := hexDigitVal_lt h2
  have b3 := hexDigitVal_lt h3
  have b4 := hexDigitVal_lt h4
  omega

lemma ucs2Loop_filters : ∀ (t : List Char) (c : Char), c ∈ ucs2Loop t →
    0 < c.toNat ∧ c.toNat ≠ 0xFEFF ∧ ¬(0xD800 ≤ c.toNat ∧ c.toNat ≤ 0xDFFF) := by
  intro t
  induction t using ucs2Loop.induct with
  | case1 c1 c2 c3 c4 rest ih =>
    intro c hc
    rw [ucs2Loop] at hc
    rcases List.mem_append.1 hc with h | h
    · rcases hcode : hexNat [c1, c2, c3, c4] with _ | code <;> rw [hcode] at h <;>
        dsimp only at h
      · simp at h
      by_cases hok : 0 < code ∧ code ≠ 0xFEFF ∧ ¬(0xD800 ≤ code ∧ code ≤ 0xDFFF)
      · rw [if_pos hok] at h
        simp only [List.mem_singleton] at h
        subst h
        have hv : code < 65536 := hexNat_four_lt hcode
        have hvalid : Nat.isValidChar code := by
          rcases hok with ⟨_, _, hsur⟩
          simp only [Nat.isValidChar]
          omega
        rw [char_toNat_ofNat hvalid]
        exact hok
      · rw [if_neg hok] at h
        simp at h
    · exact ih c h
  | case2 t ht =>
    intro c hc
    rcases t with _ | ⟨a, _ | ⟨b, _ | ⟨d, _ | ⟨e, rest⟩⟩⟩⟩
    · rw [ucs2Loop.eq_def] at hc; simp at hc
    · rw [ucs2Loop.eq_def] at hc; simp at hc
    · rw [ucs2Loop.eq_def] at hc; simp at hc
    · rw [ucs2Loop.eq_def] at hc; simp at hc
    · exact (ht a b d e rest rfl).elim

/-! ### Claim theorems -/

/-- C8: `decode_ucs2_hex` is total (it is a plain function of its input;
the internal `int` failure is skipped, never propagated) and every
character of its output has a code point that is neither 0, nor the
byte-order mark 0xFEFF, nor in the surrogate range 0xD800-0xDFFF — each
such 16-bit unit is dropped individually, with no surrogate-pair
reassembly. -/
theorem decode_ucs2_hex_filters (s : List Char) (c : Char)
    (hc : c ∈ decode_ucs2_hex s) :
    0 < c.toNat ∧ c.toNat ≠ 0xFEFF ∧ ¬(0xD800 ≤ c.toNat ∧ c.toNat ≤ 0xDFFF) :=
  ucs2Loop_filters _ c hc

/-- Witness for C8: the stream `0041 FEFF D801` decodes to exactly `A`;
the BOM and the surrogate are dropped. -/
theorem decode_ucs2_hex_filters_witness :
    'A' ∈ decode_ucs2_hex ("0041FEFFD801".data) ∧
      (0 < 'A'.toNat ∧ 'A'.toNat ≠ 0xFEFF ∧
        ¬(0xD800 ≤ 'A'.toNat ∧ 'A'.toNat ≤ 0xDFFF)) :=
  ⟨by decide, decode_ucs2_hex_filters ("0041FEFFD801".data) 'A' (by decide)⟩

/-- C1: a PDU whose field parsing fails decodes to `none`
(here: a PDU truncated after the type byte), a well-formed PDU decodes to
its record, and a CMGL response containing the well-formed PDU and the
truncated PDU yields exactly the one record of the well-formed PDU — the
failed decode is skipped, not a batch-level failure.  The statement is
uniform in the clock reading `now`, which is never consulted on these
inputs. -/
theorem cmgl_batch_resilience :
    ∀ now : List Char,
      decode_sms_deliver_pdu now ("00040A91214365870900001210522103000002C824".data)
        = some ⟨0, "+1234567890".data, "2021-01-25T12:30:00".data,
                "HI".data, "gsm7".data, 0, 1, 1⟩ ∧
      decode_sms_deliver_pdu now ("0004".data) = none ∧
      parse_cmgl_response now
          ("+CMGL: 1,1,,26\n00040A91214365870900001210522103000002C824\n+CMGL: 2,1,,26\n0004\nOK".data)
        = [⟨1, "+1234567890".data, "2021-01-25T12:30:00".data,
            "HI".data, "gsm7".data, 0, 1, 1⟩] :=
  fun _ => ⟨rfl, rfl, rfl⟩

/-- C7 counterexample: on the spec's own input — address bytes
`81 21436587` with declared digit count 10 — `decode_pdu_phone` returns the
8-digit number `12345678` (the supplied field holds only 8 digit nibbles),
not a 10-digit number as claimed. -/
theorem decode_pdu_phone_digit_count_counterexample :
    decode_pdu_phone ("8121436587".data) 10 = some ("12345678".data, 12) ∧
      ("12345678".data).length ≠ 10 :=
  ⟨rfl, by decide⟩

/-- C7 amended: on PDU bytes `81 21436587` with declared digit-count 10,
`decode_pdu_phone` returns the nibble-swapped number `12345678` (8 digits,
since only 8 digit nibbles are supplied; slicing is lenient) with no
leading `+`, and with type byte `0x91` (international) the same digits
prefixed with `+`; in both cases the consumed hex-character count is
`2 + 2*ceil(10/2) = 12`. -/
theorem decode_pdu_phone_domestic_international :
    decode_pdu_phone ("8121436587".data) 10 = some ("12345678".data, 12) ∧
      decode_pdu_phone ("9121436587".data) 10 = some ("+12345678".data, 12) :=
  ⟨rfl, rfl⟩

lemma mem_swapPairs {a : Char} : ∀ {s : List Char}, a ∈ swapPairs s ↔ a ∈ s := by
  intro s
  induction s using swapPairs.induct with
  | case1 => simp [swapPairs]
  | case2 x => simp [swapPairs]
  | case3 x y t ih =>
    rw [swapPairs]
    simp only [List.mem_cons, ih]
    tauto

lemma swapPairs_swapPairs : ∀ (s : List Char), s.length % 2 = 0 →
    swapPairs (swapPairs s) = s := by
  intro s
  induction s using swapPairs.induct with
  | case1 => intro _; rfl
  | case2 x => intro h; simp at h
  | case3 x y t ih =>
    intro h
    have ht : t.length % 2 = 0 := by simp at h; omega
    rw [swapPairs, swapPairs, ih ht]

lemma swap_nibbles_of_no_F {s : List Char} (hF : 'F' ∉ s) :
    swap_nibbles s = swapPairs s := by
  rw [swap_nibbles, List.filter_eq_self]
  intro a ha
  have hmem : a ∈ s := mem_swapPairs.1 ha
  have hne : a ≠ 'F' := fun hEq => hF (hEq ▸ hmem)
  simp [hne]

/-- C5 counterexample: on input `1F23` the swapped string is `F132`, whose
`F` is interior (not a trailing fill nibble), yet `replace("F", "")`
removes it: the result is `132`, so non-trailing `F` characters are not
preserved as the claim states. -/
theorem swap_nibbles_interior_F_counterexample :
    swap_nibbles ("1F23".data) = "132".data ∧
      'F' ∉ swap_nibbles ("1F23".data) :=
  ⟨rfl, by decide⟩

/-- C5 amended: `swap_nibbles` swaps each adjacent pair of hex characters
and then removes every capital `F` wherever it occurs (not only trailing
fill); consequently the round trip `swap(swap(x)) = x` holds for every
even-length string that contains no `F`. -/
theorem swap_nibbles_roundtrip (s : List Char) (h2 : s.length % 2 = 0)
    (hF : 'F' ∉ s) : swap_nibbles (swap_nibbles s) = s := by
  have hF2 : 'F' ∉ swapPairs s := fun h => hF (mem_swapPairs.1 h)
  rw [swap_nibbles_of_no_F hF, swap_nibbles_of_no_F hF2]
  exact swapPairs_swapPairs s h2

/-- Witness for C5 amended: the round trip on `2143`. -/
theorem swap_nibbles_roundtrip_witness :
    ("2143".data).length % 2 = 0 ∧ 'F' ∉ "2143".data ∧
      swap_nibbles (swap_nibbles ("2143".data)) = "2143".data :=
  ⟨by decide, by decide, swap_nibbles_roundtrip _ (by decide) (by decide)⟩

/-- C6 counterexample: on `0A000301020308` — UDHL `0x0A`, one recognized
8-bit concatenation element `00 03 01 02 03`, then a truncated element
whose length field is missing — `parse_udh` returns zero consumed length
but the metadata accumulated before the failure (`ref=1, total=2, seq=3`),
not the default no-concatenation metadata (0, 1, 1) the claim states. -/
theorem parse_udh_truncated_counterexample :
    parse_udh ("0A000301020308".data) = (⟨1, 2, 3⟩, 0) ∧
      (⟨1, 2, 3⟩ : UdhInfo) ≠ defaultUdh :=
  ⟨rfl, by decide⟩

/-- C6 amended: on a truncated or malformed length field `parse_udh`
returns zero consumed length together with whatever concatenation
metadata was assigned before the failing read (the default `(0, 1, 1)`
when the failure precedes any recognized concatenation element, as on
`05`); the consumed length on success is exactly `2 + UDHL*2` hex
characters; and an unrecognized IEI is not a failure — it is skipped
using its declared length, as on `06 AB01FF 0003 2A0302` where the
unknown element `AB` is skipped and the concatenation element after it is
still honoured. -/
theorem parse_udh_failure_policy :
    (∀ ud : List Char, (parse_udh ud).2 = 0 ∨
      ∃ udhl, hexNat (pySlice ud 0 2) = some udhl ∧
        (parse_udh ud).2 = 2 + udhl * 2) ∧
    parse_udh ("05".data) = (defaultUdh, 0) ∧
    parse_udh ("06AB01FF00032A0302".data) = (⟨42, 3, 2⟩, 14) := by
  refine ⟨?_, rfl, rfl⟩
  intro ud
  rcases h : hexNat (pySlice ud 0 2) with _ | udhl
  · left; simp [parse_udh, h]
  · rcases h2 : parseUdhLoop ud (2 + udhl * 2) (2 + udhl * 2) 2 defaultUdh with ⟨info, b⟩
    cases b
    · left; simp [parse_udh, h, h2]
    · right; exact ⟨udhl, rfl, by simp [parse_udh, h, h2]⟩

lemma buildGroups_foldl_snd : ∀ (msgs : List DecodedSMS)
    (g : List ((List Char × Nat) × List DecodedSMS)) (s : List DecodedSMS),
    (msgs.foldl partitionStep (g, s)).2
      = s ++ msgs.filter (fun m => decide (m.concat_total ≤ 1)) := by
  intro msgs
  induction msgs with
  | nil => intro g s; simp
  | cons m rest ih =>
    intro g s
    rw [List.foldl_cons, List.filter_cons]
    by_cases hm : 1 < m.concat_total
    · rw [partitionStep, if_pos hm]
      dsimp only
      rw [ih]
      have hd : decide (m.concat_total ≤ 1) = false := by
        simp only [decide_eq_false_iff_not, not_le]; omega
      rw [hd]
      simp
    · rw [partitionStep, if_neg hm]
      dsimp only
      rw [ih]
      have hd : decide (m.concat_total ≤ 1) = true := by
        simp only [decide_eq_true_eq]; omega
      rw [hd]
      simp

lemma reassemble_concatenated_eq (msgs : List DecodedSMS) :
    reassemble_concatenated msgs
      = msgs.filter (fun m => decide (m.concat_total ≤ 1))
        ++ (buildGroups msgs).1.map combineGroup := by
  rw [reassemble_concatenated]
  have h2 : (buildGroups msgs).2
      = msgs.filter (fun m => decide (m.concat_total ≤ 1)) := by
    rw [buildGroups, buildGroups_foldl_snd]
    simp
  rw [h2]

lemma combineGroup_concat_total (g : (List Char × Nat) × List DecodedSMS) :
    (combineGroup g).concat_total = 1 := by
  rw [combineGroup]
  rcases h : List.insertionSort (fun a b => a.concat_seq ≤ b.concat_seq) g.2 with _ | ⟨f, r⟩ <;>
    simp [h]

/-- C10: every standalone record (`concat_total ≤ 1`) of the input appears
in the output of `reassemble_concatenated` unchanged (every field intact,
in input order), and all of them are placed before the reassembled group
records: the output is exactly the standalone-filtered input followed by
the per-group combined records. -/
theorem reassemble_standalone_frame (msgs : List DecodedSMS) :
    reassemble_concatenated msgs
      = msgs.filter (fun m => decide (m.concat_total ≤ 1))
        ++ (buildGroups msgs).1.map combineGroup :=
  reassemble_concatenated_eq msgs

/-- C9: no record returned by `parse_cmgl_response` has `concat_total > 1`:
fragments are consumed by the reassembler, which emits one record per
group with `concat_total` reset to 1, and standalone records satisfy
`concat_total ≤ 1` by construction. -/
theorem parse_cmgl_no_fragments (now response : List Char) (m : DecodedSMS)
    (hm : m ∈ parse_cmgl_response now response) : ¬ 1 < m.concat_total := by
  rw [parse_cmgl_response, reassemble_concatenated_eq] at hm
  rcases List.mem_append.1 hm with h | h
  · have hf := List.of_mem_filter h
    simp only [decide_eq_true_eq] at hf
    omega
  · rcases List.mem_map.1 h with ⟨g, _, hg⟩
    rw [← hg, combineGroup_concat_total]
    omega

/-- Witness for C9: a concrete single-message response. -/
theorem parse_cmgl_no_fragments_witness :
    (⟨3, "+1234567890".data, "2021-01-25T12:30:00".data, "HI".data,
        "gsm7".data, 0, 1, 1⟩ : DecodedSMS)
      ∈ parse_cmgl_response ([] : List Char)
          ("+CMGL: 3,1,,26\n00040A91214365870900001210522103000002C824\nOK".data) ∧
    ¬ 1 < (⟨3, "+1234567890".data, "2021-01-25T12:30:00".data, "HI".data,
        "gsm7".data, 0, 1, 1⟩ : DecodedSMS).concat_total :=
  ⟨by decide, parse_cmgl_no_fragments ([] : List Char)
    ("+CMGL: 3,1,,26\n00040A91214365870900001210522103000002C824\nOK".data)
    ⟨3, "+1234567890".data, "2021-01-25T12:30:00".data, "HI".data,
      "gsm7".data, 0, 1, 1⟩ (by decide)⟩

/-- C2: three fragment records sharing `(phone, concat_ref)` with
`concat_total = 3` and `concat_seq` 1, 2, 3, handed to
`reassemble_concatenated` in any of the six input orders, produce exactly
one output record: its body is the concatenation of the three bodies in
ascending `concat_seq` order with no separator, its `concat_total` is
reset to 1 (and `concat_ref`/`concat_seq` to 0/1), and its remaining
metadata is taken from the sequence-1 part. -/
theorem reassemble_three_fragments
    (i1 i2 i3 ref : Nat) (p t1 t2 t3 b1 b2 b3 e1 e2 e3 : List Char)
    (l : List DecodedSMS)
    (hl : l = [⟨i1, p, t1, b1, e1, ref, 3, 1⟩, ⟨i2, p, t2, b2, e2, ref, 3, 2⟩,
               ⟨i3, p, t3, b3, e3, ref, 3, 3⟩] ∨
          l = [⟨i1, p, t1, b1, e1, ref, 3, 1⟩, ⟨i3, p, t3, b3, e3, ref, 3, 3⟩,
               ⟨i2, p, t2, b2, e2, ref, 3, 2⟩] ∨
          l = [⟨i2, p, t2, b2, e2, ref, 3, 2⟩, ⟨i1, p, t1, b1, e1, ref, 3, 1⟩,
               ⟨i3, p, t3, b3, e3, ref, 3, 3⟩] ∨
          l = [⟨i2, p, t2, b2, e2, ref, 3, 2⟩, ⟨i3, p, t3, b3, e3, ref, 3, 3⟩,
               ⟨i1, p, t1, b1, e1, ref, 3, 1⟩] ∨
          l = [⟨i3, p, t3, b3, e3, ref, 3, 3⟩, ⟨i1, p, t1, b1, e1, ref, 3, 1⟩,
               ⟨i2, p, t2, b2, e2, ref, 3, 2⟩] ∨
          l = [⟨i3, p, t3, b3, e3, ref, 3, 3⟩, ⟨i2, p, t2, b2, e2, ref, 3, 2⟩,
               ⟨i1, p, t1, b1, e1, ref, 3, 1⟩]) :
    reassemble_concatenated l = [⟨i1, p, t1, b1 ++ b2 ++ b3, e1, 0, 1, 1⟩] := by
  rcases hl with rfl | rfl | rfl | rfl | rfl | rfl <;>
    simp [reassemble_concatenated, buildGroups, partitionStep, addToGroup, combineGroup,
      List.insertionSort, List.orderedInsert]

/-- Witness for C2: a concrete out-of-order batch. -/
theorem reassemble_three_fragments_witness :
    (([⟨2, "p".data, "t2".data, "BB".data, "gsm7".data, 9, 3, 2⟩,
       ⟨3, "p".data, "t3".data, "CC".data, "gsm7".data, 9, 3, 3⟩,
       ⟨1, "p".data, "t1".data, "AA".data, "gsm7".data, 9, 3, 1⟩] : List DecodedSMS)
        = [⟨1, "p".data, "t1".data, "AA".data, "gsm7".data, 9, 3, 1⟩,
           ⟨2, "p".data, "t2".data, "BB".data, "gsm7".data, 9, 3, 2⟩,
           ⟨3, "p".data, "t3".data, "CC".data, "gsm7".data, 9, 3, 3⟩] ∨
     ([⟨2, "p".data, "t2".data, "BB".data, "gsm7".data, 9, 3, 2⟩,
       ⟨3, "p".data, "t3".data, "CC".data, "gsm7".data, 9, 3, 3⟩,
       ⟨1, "p".data, "t1".data, "AA".data, "gsm7".data, 9, 3, 1⟩] : List DecodedSMS)
        = [⟨1, "p".data, "t1".data, "AA".data, "gsm7".data, 9, 3, 1⟩,
           ⟨3, "p".data, "t3".data, "CC".data, "gsm7".data, 9, 3, 3⟩,
           ⟨2, "p".data, "t2".data, "BB".data, "gsm7".data, 9, 3, 2⟩] ∨
     ([⟨2, "p".data, "t2".data, "BB".data, "gsm7".data, 9, 3, 2⟩,
       ⟨3, "p".data, "t3".data, "CC".data, "gsm7".data, 9, 3, 3⟩,
       ⟨1, "p".data, "t1".data, "AA".data, "gsm7".data, 9, 3, 1⟩] : List DecodedSMS)
        = [⟨2, "p".data, "t2".data, "BB".data, "gsm7".data, 9, 3, 2⟩,
           ⟨1, "p".data, "t1".data, "AA".data, "gsm7".data, 9, 3, 1⟩,
           ⟨3, "p".data, "t3".data, "CC".data, "gsm7".data, 9, 3, 3⟩] ∨
     ([⟨2, "p".data, "t2".data, "BB".data, "gsm7".data, 9, 3, 2⟩,
       ⟨3, "p".data, "t3".data, "CC".data, "gsm7".data, 9, 3, 3⟩,
       ⟨1, "p".data, "t1".data, "AA".data, "gsm7".data, 9, 3, 1⟩] : List DecodedSMS)
        = [⟨2, "p".data, "t2".data, "BB".data, "gsm7".data, 9, 3, 2⟩,
           ⟨3, "p".data, "t3".data, "CC".data, "gsm7".data, 9, 3, 3⟩,
           ⟨1, "p".data, "t1".data, "AA".data, "gsm7".data, 9, 3, 1⟩] ∨
     ([⟨2, "p".data, "t2".data, "BB".data, "gsm7".data, 9, 3, 2⟩,
       ⟨3, "p".data, "t3".data, "CC".data, "gsm7".data, 9, 3, 3⟩,
       ⟨1, "p".data, "t1".data, "AA".data, "gsm7".data, 9, 3, 1⟩] : List DecodedSMS)
        = [⟨3, "p".data, "t3".data, "CC".data, "gsm7".data, 9, 3, 3⟩,
           ⟨1, "p".data, "t1".data, "AA".data, "gsm7".data, 9, 3, 1⟩,
           ⟨2, "p".data, "t2".data, "BB".data, "gsm7".data, 9, 3, 2⟩] ∨
     ([⟨2, "p".data, "t2".data, "BB".data, "gsm7".data, 9, 3, 2⟩,
       ⟨3, "p".data, "t3".data, "CC".data, "gsm7".data, 9, 3, 3⟩,
       ⟨1, "p".data, "t1".data, "AA".data, "gsm7".data, 9, 3, 1⟩] : List DecodedSMS)
        = [⟨3, "p".data, "t3".data, "CC".data, "gsm7".data, 9, 3, 3⟩,
           ⟨2, "p".data, "t2".data, "BB".data, "gsm7".data, 9, 3, 2⟩,
           ⟨1, "p".data, "t1".data, "AA".data, "gsm7".data, 9, 3, 1⟩]) ∧
    reassemble_concatenated
        [⟨2, "p".data, "t2".data, "BB".data, "gsm7".data, 9, 3, 2⟩,
         ⟨3, "p".data, "t3".data, "CC".data, "gsm7".data, 9, 3, 3⟩,
         ⟨1, "p".data, "t1".data, "AA".data, "gsm7".data, 9, 3, 1⟩]
      = [⟨1, "p".data, "t1".data, "AABBCC".data, "gsm7".data, 0, 1, 1⟩] := by
  constructor
  · exact Or.inr (Or.inr (Or.inr (Or.inl rfl)))
  · have h := reassemble_three_fragments 1 2 3 9 ("p".data) ("t1".data) ("t2".data)
      ("t3".data) ("AA".data) ("BB".data) ("CC".data) ("gsm7".data) ("gsm7".data)
      ("gsm7".data) _ (Or.inr (Or.inr (Or.inr (Or.inl rfl))))
    simpa using h

/-- C4 counterexample: the decoder is not a pure function of the PDU string
alone.  On a PDU whose timestamp field holds hex digits `AA` (so the
decimal parse inside `decode_pdu_timestamp` raises), the source falls back
to `datetime.now().isoformat()`: two decodes of the same PDU under
different clock readings return records that differ (in the timestamp). -/
theorem decode_clock_dependence_counterexample :
    decode_sms_deliver_pdu ("2020-01-01T00:00:00".data)
        ("00040A9121436587090000AA10522103000002C824".data)
      ≠ decode_sms_deliver_pdu ("2020-01-01T00:00:01".data)
        ("00040A9121436587090000AA10522103000002C824".data) := by
  decide

/-- C4 amended: decoding is deterministic in the PDU string whenever the
timestamp field parses as decimal semi-octets (or the PDU fails before the
timestamp field); only when the timestamp parse raises does the decoder
substitute the current clock reading, so repeated decodes of such a PDU
may differ.  `tsParses` states that the `datetime.now()` fallback is not
consulted. -/
theorem decode_now_independent (pdu0 n1 n2 : List Char)
    (h : tsParses pdu0 = true) :
    decode_sms_deliver_pdu n1 pdu0 = decode_sms_deliver_pdu n2 pdu0 := by
  simp only [tsParses, tsField] at h
  simp only [decode_sms_deliver_pdu]
  cases h1 : hex2 (pyClean pdu0) 0 with
  | none => rfl
  | some sca_len =>
    simp only [h1] at h
    dsimp only
    cases h2 : hex2 (pyClean pdu0) (2 + sca_len * 2) with
    | none => rfl
    | some pdu_type =>
      simp only [h2] at h
      dsimp only
      cases h3 : hex2 (pyClean pdu0) (2 + sca_len * 2 + 2) with
      | none => rfl
      | some oa_len =>
        simp only [h3] at h
        dsimp only
        cases h4 : decode_pdu_phone ((pyClean pdu0).drop (2 + sca_len * 2 + 2 + 2)) oa_len with
        | none => rfl
        | some pr =>
          obtain ⟨phone, phone_bytes⟩ := pr
          simp only [h4] at h
          dsimp only
          cases h5 : hex2 (pyClean pdu0) (2 + sca_len * 2 + 2 + 2 + phone_bytes + 2) with
          | none => rfl
          | some dcs =>
            simp only [h5] at h
            dsimp only
            obtain ⟨r, hr⟩ := Option.isSome_iff_exists.1 h
            rw [show decode_pdu_timestamp n1
                  (pySlice (pyClean pdu0)
                    (2 + sca_len * 2 + 2 + 2 + phone_bytes + 2 + 2)
                    (2 + sca_len * 2 + 2 + 2 + phone_bytes + 2 + 2 + 14)) = r from by
                rw [decode_pdu_timestamp, hr]; rfl,
              show decode_pdu_timestamp n2
                  (pySlice (pyClean pdu0)
                    (2 + sca_len * 2 + 2 + 2 + phone_bytes + 2 + 2)
                    (2 + sca_len * 2 + 2 + 2 + phone_bytes + 2 + 2 + 14)) = r from by
                rw [decode_pdu_timestamp, hr]; rfl]

/-- Witness for C4 amended: a PDU with a well-formed timestamp decodes
identically under two different clock readings. -/
theorem decode_now_independent_witness :
    tsParses ("00040A91214365870900001210522103000002C824".data) = true ∧
      decode_sms_deliver_pdu ("2020-01-01T00:00:00".data)
          ("00040A91214365870900001210522103000002C824".data)
        = decode_sms_deliver_pdu ("2020-01-01T00:00:01".data)
          ("00040A91214365870900001210522103000002C824".data) :=
  ⟨by decide, decode_now_independent ("00040A91214365870900001210522103000002C824".data)
    ("2020-01-01T00:00:00".data) ("2020-01-01T00:00:01".data) (by decide)⟩

lemma hexDigitVal_hexChar : ∀ d : Nat, d < 16 → hexDigitVal (hexChar d) = some d := by
  decide

lemma hexNat_toHex2 {m : Nat} (h : m < 256) : hexNat (toHex2 m) = some m := by
  have h1 := hexDigitVal_hexChar (m / 16) (by omega)
  have h2 := hexDigitVal_hexChar (m % 16) (by omega)
  simp [hexNat, toHex2, List.foldl, h1, h2]
  omega

lemma pyClean_append (a b : List Char) : pyClean (a ++ b) = pyClean a ++ pyClean b := by
  simp [pyClean]

lemma pyClean_toHex2 : ∀ m : Nat, m < 256 → pyClean (toHex2 m) = toHex2 m := by
  decide

example : True := trivial

lemma c3_decode_noudh (now payload : List Char) (n : Nat) (hn : n + 7 ≤ 255) :
    (decode_sms_deliver_pdu now (pduNoUdh n payload)).map DecodedSMS.body
      = some (sanitize_unicode (decode_gsm7_packed (pyClean payload) n)) := by
  obtain ⟨d1, d2, hd, hv⟩ : ∃ d1 d2, toHex2 n = [d1, d2] ∧ hexNat [d1, d2] = some n :=
    ⟨_, _, rfl, hexNat_toHex2 (by omega)⟩
  have e1 : pyClean (pduNoUdh n payload)
      = c3HeaderPlain ++ ([d1, d2] ++ pyClean payload) := by
    rw [pduNoUdh, pyClean_append, pyClean_append,
      show pyClean c3HeaderPlain = c3HeaderPlain from rfl, pyClean_toHex2 n (by omega), hd]
  simp only [decode_sms_deliver_pdu, e1]
  rw [show hex2 (c3HeaderPlain ++ ([d1, d2] ++ pyClean payload)) 0 = some 0 from rfl]
  dsimp only
  simp only [Nat.reduceMul, Nat.reduceAdd]
  rw [show hex2 (c3HeaderPlain ++ ([d1, d2] ++ pyClean payload)) 2 = some 4 from rfl]
  dsimp only
  rw [show hex2 (c3HeaderPlain ++ ([d1, d2] ++ pyClean payload)) 4 = some 10 from rfl]
  dsimp only
  rw [show decode_pdu_phone (List.drop 6 (c3HeaderPlain ++ ([d1, d2] ++ pyClean payload))) 10 = some ("+1234567890".data, 12) from rfl]
  dsimp only
  simp only [Nat.reduceAdd]
  rw [show hex2 (c3HeaderPlain ++ ([d1, d2] ++ pyClean payload)) 20 = some 0 from rfl]
  dsimp only
  rw [show hex2 (c3HeaderPlain ++ ([d1, d2] ++ pyClean payload)) 36 = some n from by
    rw [hex2, show pySlice (c3HeaderPlain ++ ([d1, d2] ++ pyClean payload)) 36 (36 + 2) = [d1, d2] from rfl]; exact hv]
  dsimp only
  simp only [show (if (0 : Nat) &&& 192 = 0 then decide ((0 : Nat) >>> 2 &&& 3 = 2)
        else decide ((0 : Nat) &&& 240 = 224)) = false from rfl,
    show ((4 : Nat) &&& 64 != 0) = false from rfl, Bool.false_eq_true, reduceIte]
  rw [show List.drop 38 (c3HeaderPlain ++ ([d1, d2] ++ pyClean payload)) = pyClean payload from rfl]
  rw [show (if n > 0 then n else 0) = n from by
    rcases Nat.eq_zero_or_pos n with h | h
    · subst h; rfl
    · rw [if_pos h]]
  rfl


lemma c3_decode_withudh (now payload : List Char) (n : Nat) (hn : n + 7 ≤ 255) :
    (decode_sms_deliver_pdu now (pduWithUdh n payload)).map DecodedSMS.body
      = some (sanitize_unicode (decode_gsm7_packed (pyClean payload) n)) := by
  obtain ⟨d1, d2, hd, hv⟩ : ∃ d1 d2, toHex2 (n + 7) = [d1, d2] ∧ hexNat [d1, d2] = some (n + 7) :=
    ⟨_, _, rfl, hexNat_toHex2 (by omega)⟩
  have e1 : pyClean (pduWithUdh n payload)
      = c3HeaderUdh ++ ([d1, d2] ++ (c3Udh ++ pyClean payload)) := by
    rw [pduWithUdh, pyClean_append, pyClean_append, pyClean_append,
      show pyClean c3HeaderUdh = c3HeaderUdh from rfl,
      show pyClean c3Udh = c3Udh from rfl, pyClean_toHex2 (n + 7) (by omega), hd]
  simp only [decode_sms_deliver_pdu, e1]
  rw [show hex2 (c3HeaderUdh ++ ([d1, d2] ++ (c3Udh ++ pyClean payload))) 0 = some 0 from rfl]
  dsimp only
  simp only [Nat.reduceMul, Nat.reduceAdd]
  rw [show hex2 (c3HeaderUdh ++ ([d1, d2] ++ (c3Udh ++ pyClean payload))) 2 = some 68 from rfl]
  dsimp only
  rw [show hex2 (c3HeaderUdh ++ ([d1, d2] ++ (c3Udh ++ pyClean payload))) 4 = some 10 from rfl]
  dsimp only
  rw [show decode_pdu_phone (List.drop 6 (c3HeaderUdh ++ ([d1, d2] ++ (c3Udh ++ pyClean payload)))) 10 = some ("+1234567890".data, 12) from rfl]
  dsimp only
  simp only [Nat.reduceAdd]
  rw [show hex2 (c3HeaderUdh ++ ([d1, d2] ++ (c3Udh ++ pyClean payload))) 20 = some 0 from rfl]
  dsimp only
  rw [show hex2 (c3HeaderUdh ++ ([d1, d2] ++ (c3Udh ++ pyClean payload))) 36 = some (n + 7) from by
    rw [hex2, show pySlice (c3HeaderUdh ++ ([d1, d2] ++ (c3Udh ++ pyClean payload))) 36 (36 + 2) = [d1, d2] from rfl]; exact hv]
  dsimp only
  simp only [show (if (0 : Nat) &&& 192 = 0 then decide ((0 : Nat) >>> 2 &&& 3 = 2)
        else decide ((0 : Nat) &&& 240 = 224)) = false from rfl,
    show ((68 : Nat) &&& 64 != 0) = true from rfl, Bool.false_eq_true, reduceIte]
  rw [show parse_udh (List.drop 38 (c3HeaderUdh ++ ([d1, d2] ++ (c3Udh ++ pyClean payload)))) = (⟨42, 3, 1⟩, 12) from rfl]
  dsimp only
  simp only [Nat.reduceDiv]
  rw [show gsm7UdhSeptets 6 = 7 from rfl, Nat.add_sub_cancel]
  rw [show List.drop 12 (List.drop 38 (c3HeaderUdh ++ ([d1, d2] ++ (c3Udh ++ pyClean payload)))) = pyClean payload from rfl]
  rw [show (if n > 0 then n else 0) = n from by
    rcases Nat.eq_zero_or_pos n with h | h
    · subst h; rfl
    · rw [if_pos h]]
  rfl

/-- C3: for a GSM7 PDU with the UDH-present flag set, the declared
user-data septet length is reduced by exactly `ceil(8*h/7)` where `h` is
the full header length in octets (here `h = udh_len/2 = 1 + UDHL`),
computed by the source's fill-bit accounting (first conjunct, for every
`h`); consequently, for the 6-byte 8-bit-reference concatenation UDH
`05 00 03 2A 03 01`, the decoded body of `pduWithUdh n payload` is
exactly the GSM7 decode of the payload alone with `n` characters — it
excludes all header-derived characters and equals the body obtained by
decoding the same payload in the PDU without UDH (`pduNoUdh n payload`),
for every payload and every declared length byte `n + 7 ≤ 255`. -/
theorem gsm7_udh_length_correction :
    (∀ h : Nat, gsm7UdhSeptets h = (8 * h + 6) / 7) ∧
    (∀ (now payload : List Char) (n : Nat), n + 7 ≤ 255 →
      (decode_sms_deliver_pdu now (pduWithUdh n payload)).map DecodedSMS.body
          = some (sanitize_unicode (decode_gsm7_packed (pyClean payload) n)) ∧
      (decode_sms_deliver_pdu now (pduNoUdh n payload)).map DecodedSMS.body
          = some (sanitize_unicode (decode_gsm7_packed (pyClean payload) n))) := by
  constructor
  · intro b
    simp only [gsm7UdhSeptets]
    omega
  · intro now payload n hn
    exact ⟨c3_decode_withudh now payload n hn, c3_decode_noudh now payload n hn⟩

/-- Witness for C3: payload `C824` (`HI`), `n = 2`. -/
theorem gsm7_udh_length_correction_witness :
    2 + 7 ≤ 255 ∧
      ((decode_sms_deliver_pdu [] (pduWithUdh 2 ("C824".data))).map DecodedSMS.body
          = some (sanitize_unicode (decode_gsm7_packed (pyClean ("C824".data)) 2)) ∧
       (decode_sms_deliver_pdu [] (pduNoUdh 2 ("C824".data))).map DecodedSMS.body
          = some (sanitize_unicode (decode_gsm7_packed (pyClean ("C824".data)) 2))) :=
  ⟨by decide, gsm7_udh_length_correction.2 [] ("C824".data) 2 (by decide)⟩
